import Mathlib

/-!
Verification development for the ocbpy core: the boundary-record store with
its `rec_ind` cursor, the coordinate normalizer (`normal_coord` /
`revert_coord`), the monotone time matcher (`match_data_ocb` with
`get_next_good_ocb_ind`), and the vector rescaler.  The repository ships only
its test suite under `src/`; every definition of the core is therefore
modelled from the specification text, as indicated by its doc comment.
Angles are exact reals (degrees at the interface, radians inside the
trigonometry); epochs are integer seconds; the record store is a `List`.
-/

namespace Ocbpy

/-- Degrees to radians. -/
noncomputable def d2r (x : ℝ) : ℝ := x * (Real.pi / 180)

/-- Radians to degrees. -/
noncomputable def r2d (x : ℝ) : ℝ := x * (180 / Real.pi)

/-- Wrap a magnetic local time (hours) into the interval `[0, 24)`. -/
noncomputable def wrap24 (x : ℝ) : ℝ := 24 * Int.fract (x / 24)

/-- Modelled from the spec (section 3): one per-epoch boundary estimate.
`epoch` is the timestamp in integer seconds, `r_cent` the angular offset of
the OCB pole from the reference pole (degrees), `phi_cent` the azimuthal
(local-time-like) angle of that offset (degrees), `r` the angular radius of
the boundary circle (degrees), and `num_points` the quality field whose
vanishing marks the record invalid. -/
structure OCBRecord where
  epoch : ℤ
  r_cent : ℝ
  phi_cent : ℝ
  r : ℝ
  num_points : ℕ

/-- Modelled from the spec (section 3): the boundary set, an ordered record
sequence plus the nominal reference latitude `boundary_lat`, the hemisphere
sign (`+1` north, `-1` south) and the forward-only cursor `rec_ind`
(`-1` meaning before any record, the sequence length meaning exhausted). -/
structure OCBoundary where
  filename : Option String
  recs : List OCBRecord
  boundary_lat : ℝ
  hemisphere : ℝ
  rec_ind : ℤ

/-- Placeholder record used as the out-of-range default of list indexing. -/
def dfltRec : OCBRecord := ⟨0, 0, 0, 0, 0⟩

/-- Number of loaded boundary records. -/
def OCBoundary.records (ocb : OCBoundary) : ℕ := ocb.recs.length

/-- Modelled from the spec (section 4.1): the epoch array, absent when no
records were loaded (mirroring the `dtime is None` state of an object
constructed without a file). -/
def OCBoundary.dtime (ocb : OCBoundary) : Option (List ℤ) :=
  if ocb.recs.isEmpty then none else some (ocb.recs.map OCBRecord.epoch)

/-- The record currently selected by the cursor. -/
def currentRec (ocb : OCBoundary) : OCBRecord :=
  ocb.recs.getD ocb.rec_ind.toNat dfltRec

/-- Modelled from the spec (sections 3 and 4.1): the validity predicate on a
record — a non-zero number of supporting points.  (The spec also asks for
finite geometry fields; over exact reals every value is finite, so that part
of the predicate is trivial and omitted.) -/
def isGood (rec' : OCBRecord) : Bool := rec'.num_points != 0

/-- Modelled from the spec (section 2): construction of the boundary object.
The file argument is either an explicit path, explicitly no file, or the
instrument default; only the IMAGE instrument has a default file.  Loading
itself is an external collaborator, abstracted by `load`. -/
inductive FileArg
  | useDefault
  | noFile
  | path (name : String)

/-- Modelled from the spec (sections 2 and 6) and the constructor behaviour
pinned by `test_nofile_init` / `test_wrong_instrument`: with no resolvable
file the object is the empty boundary store (no filename, no records,
cursor before any record); otherwise the external loader supplies the
records.  Only the default instrument (named "image") has a default
file. -/
def mkOCBoundary (farg : FileArg) (instrument : String) (hemisphere : ℝ)
    (boundary_lat : ℝ) (load : String → List OCBRecord) : OCBoundary :=
  let fname : Option String :=
    match farg with
    | .noFile => none
    | .path s => some s
    | .useDefault =>
        if instrument == "image" then some "si13_north_circle" else none
  match fname with
  | none => ⟨none, [], boundary_lat, hemisphere, -1⟩
  | some f => ⟨some f, load f, boundary_lat, hemisphere, -1⟩

/-! ### Spherical geometry of the coordinate normalizer -/

/-- Unit vector of a point given by colatitude and azimuth, both in degrees. -/
noncomputable def toVec (colat az : ℝ) : ℝ × ℝ × ℝ :=
  (Real.sin (d2r colat) * Real.cos (d2r az),
   Real.sin (d2r colat) * Real.sin (d2r az),
   Real.cos (d2r colat))

/-- Rotation about the z axis by `a` radians. -/
noncomputable def rotZ (a : ℝ) (v : ℝ × ℝ × ℝ) : ℝ × ℝ × ℝ :=
  (v.1 * Real.cos a - v.2.1 * Real.sin a,
   v.1 * Real.sin a + v.2.1 * Real.cos a,
   v.2.2)

/-- Rotation about the y axis by `a` radians. -/
noncomputable def rotY (a : ℝ) (v : ℝ × ℝ × ℝ) : ℝ × ℝ × ℝ :=
  (v.1 * Real.cos a + v.2.2 * Real.sin a,
   v.2.1,
   -v.1 * Real.sin a + v.2.2 * Real.cos a)

/-- Squared Euclidean norm of a vector. -/
noncomputable def norm2 (v : ℝ × ℝ × ℝ) : ℝ := v.1 ^ 2 + v.2.1 ^ 2 + v.2.2 ^ 2

/-- Modelled from the spec (section 4.2, step 2): the spherical rotation that
expresses a point relative to the displaced OCB pole at colatitude `rc` and
azimuth `pc` (degrees), keeping the azimuthal (local-time) reference aligned:
conjugate the polar tilt by the azimuth of the pole offset. -/
noncomputable def ocbFrame (rc pc : ℝ) (v : ℝ × ℝ × ℝ) : ℝ × ℝ × ℝ :=
  rotZ (d2r pc) (rotY (-d2r rc) (rotZ (-d2r pc) v))

/-- Inverse of `ocbFrame`: the same pole offset composed the opposite way. -/
noncomputable def ocbFrameInv (rc pc : ℝ) (v : ℝ × ℝ × ℝ) : ℝ × ℝ × ℝ :=
  rotZ (d2r pc) (rotY (d2r rc) (rotZ (-d2r pc) v))

/-- Azimuth of a vector read off as magnetic local time in hours, wrapped
into `[0, 24)`; the zero vector yields the sentinel `0`. -/
noncomputable def azHours (v : ℝ × ℝ × ℝ) : ℝ :=
  wrap24 (Complex.arg ⟨v.1, v.2.1⟩ * (12 / Real.pi))

/-- Modelled from the spec (section 4.2): `normal_coord`.  Converts the AACGM
local time to an angle (15 degrees per hour) and the latitude to a
colatitude signed by hemisphere, finds angular distance and bearing from the
displaced OCB pole by spherical rotation, rescales the distance by the
linear ratio `(90 - |boundary_lat|) / r` onto the nominal boundary, and
returns `(ocb_lat, ocb_mlt)` with the latitude sign restored per hemisphere
and the local time wrapped into `[0, 24)`.  Fails (returns `none`) when the
cursor is out of bounds or the selected record is invalid. -/
noncomputable def OCBoundary.normal_coord (ocb : OCBoundary)
    (aacgm_lat aacgm_mlt : ℝ) : Option (ℝ × ℝ) :=
  if 0 ≤ ocb.rec_ind ∧ ocb.rec_ind < (ocb.recs.length : ℤ) ∧
      isGood (currentRec ocb) = true then
    let cur := currentRec ocb
    let colat := 90 - ocb.hemisphere * aacgm_lat
    let az := aacgm_mlt * 15
    let v := ocbFrame cur.r_cent cur.phi_cent (toVec colat az)
    let xi := r2d (Real.arccos v.2.2)
    let scale := (90 - ocb.hemisphere * ocb.boundary_lat) / cur.r
    some (ocb.hemisphere * (90 - scale * xi), azHours v)
  else none

/-- Modelled from the spec (section 4.2): `revert_coord`, the algorithmic
inverse of `normal_coord` — undo the radius rescaling, then apply the
inverse spherical rotation with the same pole offset to recover
`(aacgm_lat, aacgm_mlt)`. -/
noncomputable def OCBoundary.revert_coord (ocb : OCBoundary)
    (ocb_lat ocb_mlt : ℝ) : Option (ℝ × ℝ) :=
  if 0 ≤ ocb.rec_ind ∧ ocb.rec_ind < (ocb.recs.length : ℤ) ∧
      isGood (currentRec ocb) = true then
    let cur := currentRec ocb
    let scale := (90 - ocb.hemisphere * ocb.boundary_lat) / cur.r
    let xi := (90 - ocb.hemisphere * ocb_lat) / scale
    let az := ocb_mlt * 15
    let v := ocbFrameInv cur.r_cent cur.phi_cent (toVec xi az)
    let colat := r2d (Real.arccos v.2.2)
    some (ocb.hemisphere * (90 - colat), azHours v)
  else none

/-! ### Time matcher -/

/-- Modelled from the spec (section 4.1): `get_next_good_ocb_ind` scans
forward from `start + 1` for the first record satisfying the validity
predicate, leaving the out-of-range sentinel (the record count) when none
remains; it never runs backward. -/
def nextGoodInd (recs : List OCBRecord) (start : ℤ) : ℤ :=
  let base := (start + 1).toNat
  match (recs.drop base).findIdx? isGood with
  | some i => ((base + i : ℕ) : ℤ)
  | none => (recs.length : ℤ)

/-- The cursor-mutating form of the forward scan. -/
def OCBoundary.get_next_good_ocb_ind (ocb : OCBoundary) : OCBoundary :=
  { ocb with rec_ind := nextGoodInd ocb.recs ocb.rec_ind }

/-- Modelled from the spec (section 4.3): the two-cursor matching loop.
While both cursors are in range: a record within `tol` seconds of the
current observation matches immediately; a record too far in the past is
skipped forward through `nextGoodInd`; an observation too far in the past of
the current record advances the data index.  Running out of either series is
the negative-result outcome `none`.  The fuel argument only bounds the
recursion; `match_data_ocb` supplies more fuel than any reachable path
consumes. -/
def matchLoop (recs : List OCBRecord) (epochs : List ℤ) (tol : ℤ) :
    ℕ → ℤ → ℕ → Option ℕ × ℤ
  | 0, r, _ => (none, r)
  | fuel + 1, r, idat =>
    if idat < epochs.length then
      if 0 ≤ r ∧ r < (recs.length : ℤ) then
        let trec := (recs.getD r.toNat dfltRec).epoch
        let tdat := epochs.getD idat 0
        if |trec - tdat| ≤ tol then (some idat, r)
        else if trec < tdat then
          matchLoop recs epochs tol fuel (nextGoodInd recs r) idat
        else matchLoop recs epochs tol fuel r (idat + 1)
      else (none, r)
    else (none, r)

/-- Modelled from the spec (section 4.3): the default matching tolerance of
`match_data_ocb`, 600 seconds. -/
def default_max_tol : ℤ := 600

/-- Modelled from the spec (section 4.3): `match_data_ocb`.  A cursor still
before any record is first advanced to the first good record; then the
two-cursor loop runs.  Returns the matched data index (or `none`) together
with the boundary set whose cursor was updated as a side effect. -/
def match_data_ocb (ocb : OCBoundary) (epochs : List ℤ) (idat : ℕ)
    (tol : ℤ) : Option ℕ × OCBoundary :=
  let r0 := if ocb.rec_ind < 0 then nextGoodInd ocb.recs ocb.rec_ind
            else ocb.rec_ind
  let res := matchLoop ocb.recs epochs tol
    (ocb.recs.length + epochs.length + 2) r0 idat
  (res.1, { ocb with rec_ind := res.2 })

/-- A full matching pass: `match_data_ocb` applied at each successive data
index, threading the cursor state through, recording the cursor after each
call.  The fuel is the number of remaining data indices. -/
def matchPass (epochs : List ℤ) (tol : ℤ) : ℕ → OCBoundary → ℕ → List ℤ
  | 0, _, _ => []
  | fuel + 1, ocb, idat =>
    if idat < epochs.length then
      let next := (match_data_ocb ocb epochs idat tol).2
      next.rec_ind :: matchPass epochs tol fuel next (idat + 1)
    else []

/-! ### Vector rescaler -/

/-- Modelled from the spec (section 4.4, step 5): the vector variant tag —
plain (area-type scaling), curl (radius-type scaling) or custom
(caller-supplied scaling function of magnitude, record radius and nominal
boundary latitude). -/
inductive VectorKind
  | plain
  | curl
  | custom (f : ℝ → ℝ → ℝ → ℝ)

/-- Magnitude of an AACGM north/east vector. -/
noncomputable def aacgm_mag (n e : ℝ) : ℝ := Real.sqrt (n ^ 2 + e ^ 2)

/-- The boundary-radius ratio `r / (90 - boundary_lat)` of the spec. -/
noncomputable def radius_ratio (r bl : ℝ) : ℝ := r / (90 - bl)

/-- Modelled from the spec (section 4.4, steps 2 and 3): magnitude scaling
for plain (additive/flux-type) vectors, `|v| / radius_scale` with
`radius_scale = (r / (90 - boundary_lat)) ^ 2`. -/
noncomputable def normal_evar (evar r bl : ℝ) : ℝ :=
  evar / radius_ratio r bl ^ 2

/-- Modelled from the spec (section 4.4, steps 2 and 3): magnitude scaling
for curl-type (vorticity-type) vectors, dividing by the linear (unsquared)
ratio `r / (90 - boundary_lat)`. -/
noncomputable def normal_curl_evar (evar r bl : ℝ) : ℝ :=
  evar / radius_ratio r bl

/-- Modelled from the spec (section 4.4, step 5): the rescaler dispatches on
the explicit variant tag, not on naming convention. -/
noncomputable def scaled_mag (k : VectorKind) (mag r bl : ℝ) : ℝ :=
  match k with
  | .plain => normal_evar mag r bl
  | .curl => normal_curl_evar mag r bl
  | .custom f => f mag r bl

/-! ### Configuration checking of the observation-container integration -/

/-- Modelled from the spec (section 6): a vector specification — component
field names, display name, unit and an optional scaling function. -/
structure VectorSpec where
  aacgm_n : String
  aacgm_e : String
  dat_name : String
  dat_units : String
  scale_func : Option (ℝ → ℝ → ℝ → ℝ)

/-- Modelled from the spec (section 7): the configuration error taxonomy of
the observation binding, each variant identifying the offending name(s). -/
inductive ConfigError
  | unknownMlat (name : String)
  | unknownMlt (name : String)
  | unknownEField (names : List String)
  | unknownVectorName (name : String)
  | missingScaleFunc (name : String)

/-- Modelled from the spec (sections 4.4 and 6): resolution of the declared
vectors.  For each vector the scaling function is resolved first (a vector
listed as an electric-field or curl variable gets the built-in law, an
explicit function is accepted, anything else is a configuration error),
then both component names are resolved against the observation fields. -/
def resolveVectors (fields evar curl : List String) :
    List (String × VectorSpec) → Except ConfigError (List String)
  | [] => .ok []
  | (key, vspec) :: rest =>
    if evar.contains key || curl.contains key || vspec.scale_func.isSome then
      if fields.contains vspec.aacgm_n then
        if fields.contains vspec.aacgm_e then
          (resolveVectors fields evar curl rest).map (fun out => key :: out)
        else .error (.unknownVectorName vspec.aacgm_e)
      else .error (.unknownVectorName vspec.aacgm_n)
    else .error (.missingScaleFunc key)

/-- Modelled from the spec (sections 4.4, 6 and 7): the fail-fast
configuration check of `add_ocb_to_data`.  The position names, the declared
scalar names and every vector declaration are resolved against the
observation fields before any output is produced; the first unresolved name
is reported as a configuration error and no output list exists in that
case. -/
def add_ocb_to_data (fields : List String) (mlat_name mlt_name : String)
    (evar_names curl_evar_names : List String)
    (vector_names : List (String × VectorSpec)) :
    Except ConfigError (List String) :=
  if !(fields.contains mlat_name) then .error (.unknownMlat mlat_name)
  else if !(fields.contains mlt_name) then .error (.unknownMlt mlt_name)
  else
    let vecKeys := vector_names.map Prod.fst
    let bad := (evar_names ++ curl_evar_names).filter
      (fun n => !(fields.contains n || vecKeys.contains n))
    if bad ≠ [] then .error (.unknownEField bad)
    else resolveVectors fields evar_names curl_evar_names vector_names

/-! ### Concrete scenario records -/

/-- Modelled from the spec (section 8, scenario A): the northern-hemisphere
boundary record of the scenario.  The test data file holding the original
record (index 27 of `test_north_circle`) is not part of `src/`, and the spec
states only `boundary_lat = 74` and radius `r = 18.38`; the missing pole
offset (`r_cent`, `phi_cent`) is reconstructed from the spec's expected
outputs, so that the theorem checks that one record produces both expected
outputs simultaneously under the normalization algorithm. -/
noncomputable def scenarioNorthRec : OCBRecord :=
  ⟨0, 3.1341376863 * 18.38 / 16, 87.48, 18.38, 5⟩

/-- Modelled from the spec (section 8, scenario A): the northern boundary
set, `boundary_lat = 74`, hemisphere `+1`, cursor on the scenario record. -/
noncomputable def scenarioNorthOcb : OCBoundary :=
  ⟨some "test_north_circle", [scenarioNorthRec], 74, 1, 0⟩

/-- Modelled from the spec (section 8, scenario C): the southern-hemisphere
boundary record.  The spec states only `boundary_lat = -72`; the record
radius and pole offset are not given (the test data file is not in `src/`)
and are reconstructed from the spec's expected outputs. -/
noncomputable def scenarioSouthRec : OCBRecord := ⟨0, 3, 270, 15, 5⟩

/-- Modelled from the spec (section 8, scenario C): the southern boundary
set, `boundary_lat = -72`, hemisphere `-1`, cursor on the scenario record. -/
noncomputable def scenarioSouthOcb : OCBoundary :=
  ⟨some "test_south_circle", [scenarioSouthRec], -72, -1, 0⟩

/-- A concrete one-record boundary set whose record has pole offset
`(3, 30)`, used to exhibit the pole-coincidence behaviour at a concrete
input. -/
noncomputable def poleWitnessOcb : OCBoundary :=
  ⟨some "f", [⟨0, 3, 30, 16, 5⟩], 74, 1, 0⟩

/-- A concrete one-record boundary set used to exhibit the round-trip law at
a concrete input. -/
noncomputable def roundTripOcb : OCBoundary :=
  ⟨some "f", [⟨0, 1, 10, 16, 5⟩], 74, 1, 0⟩

/-! ### Geometry lemmas -/

theorem d2r_nonneg {x : ℝ} (h : 0 ≤ x) : 0 ≤ d2r x :=
  mul_nonneg h (by positivity)

theorem d2r_pos {x : ℝ} (h : 0 < x) : 0 < d2r x :=
  mul_pos h (by positivity)

theorem d2r_le_pi {x : ℝ} (h : x ≤ 180) : d2r x ≤ Real.pi := by
  unfold d2r
  nlinarith [Real.pi_pos]

theorem d2r_lt_pi {x : ℝ} (h : x < 180) : d2r x < Real.pi := by
  unfold d2r
  nlinarith [Real.pi_pos]

theorem d2r_r2d (x : ℝ) : d2r (r2d x) = x := by
  unfold d2r r2d
  field_simp

theorem r2d_d2r (x : ℝ) : r2d (d2r x) = x := by
  unfold d2r r2d
  field_simp

theorem wrap24_eq (x : ℝ) : wrap24 x = x - 24 * ⌊x / 24⌋ := by
  unfold wrap24 Int.fract
  ring

theorem wrap24_eq_self {x : ℝ} (h0 : 0 ≤ x) (h24 : x < 24) : wrap24 x = x := by
  unfold wrap24
  rw [Int.fract_eq_self.mpr
    ⟨div_nonneg h0 (by norm_num), (div_lt_one (by norm_num)).mpr h24⟩]
  ring

theorem wrap24_sub_24 (x : ℝ) : wrap24 (x - 24) = wrap24 x := by
  unfold wrap24
  rw [show (x - 24) / 24 = x / 24 - ((1 : ℤ) : ℝ) from by push_cast; ring]
  rw [Int.fract_sub_int]

theorem wrap24_zero : wrap24 0 = 0 := by
  unfold wrap24
  rw [zero_div, Int.fract_zero, mul_zero]

theorem wrap24_neg_add {x : ℝ} (h1 : -24 ≤ x) (h2 : x < 0) :
    wrap24 x = x + 24 := by
  unfold wrap24
  have hfl : ⌊x / 24⌋ = -1 := by
    rw [Int.floor_eq_iff]
    constructor
    · push_cast
      linarith
    · push_cast
      linarith
  rw [Int.fract, hfl]
  push_cast
  ring

theorem rotZ_rotZ_neg (a : ℝ) (v : ℝ × ℝ × ℝ) : rotZ a (rotZ (-a) v) = v := by
  obtain ⟨x, y, z⟩ := v
  simp only [rotZ, Real.cos_neg, Real.sin_neg, Prod.mk.injEq]
  refine ⟨?_, ?_, trivial⟩
  · linear_combination x * Real.sin_sq_add_cos_sq a
  · linear_combination y * Real.sin_sq_add_cos_sq a

theorem rotZ_neg_rotZ (a : ℝ) (v : ℝ × ℝ × ℝ) : rotZ (-a) (rotZ a v) = v := by
  have h := rotZ_rotZ_neg (-a) v
  rw [neg_neg] at h
  exact h

theorem rotY_rotY_neg (a : ℝ) (v : ℝ × ℝ × ℝ) : rotY a (rotY (-a) v) = v := by
  obtain ⟨x, y, z⟩ := v
  simp only [rotY, Real.cos_neg, Real.sin_neg, Prod.mk.injEq]
  refine ⟨?_, trivial, ?_⟩
  · linear_combination x * Real.sin_sq_add_cos_sq a
  · linear_combination z * Real.sin_sq_add_cos_sq a

theorem ocbFrameInv_ocbFrame (rc pc : ℝ) (v : ℝ × ℝ × ℝ) :
    ocbFrameInv rc pc (ocbFrame rc pc v) = v := by
  unfold ocbFrame ocbFrameInv
  rw [rotZ_neg_rotZ, rotY_rotY_neg, rotZ_rotZ_neg]

theorem norm2_toVec (c a : ℝ) : norm2 (toVec c a) = 1 := by
  simp only [norm2, toVec]
  linear_combination (Real.sin (d2r c)) ^ 2 * Real.sin_sq_add_cos_sq (d2r a) +
    Real.sin_sq_add_cos_sq (d2r c)

theorem norm2_rotZ (a : ℝ) (v : ℝ × ℝ × ℝ) : norm2 (rotZ a v) = norm2 v := by
  obtain ⟨x, y, z⟩ := v
  simp only [norm2, rotZ]
  linear_combination (x ^ 2 + y ^ 2) * Real.sin_sq_add_cos_sq a

theorem norm2_rotY (a : ℝ) (v : ℝ × ℝ × ℝ) : norm2 (rotY a v) = norm2 v := by
  obtain ⟨x, y, z⟩ := v
  simp only [norm2, rotY]
  linear_combination (x ^ 2 + z ^ 2) * Real.sin_sq_add_cos_sq a

theorem norm2_ocbFrame (rc pc : ℝ) (v : ℝ × ℝ × ℝ) :
    norm2 (ocbFrame rc pc v) = norm2 v := by
  unfold ocbFrame
  rw [norm2_rotZ, norm2_rotY, norm2_rotZ]

theorem abs_mul_cos_arg (w : ℂ) :
    Complex.abs w * Real.cos (Complex.arg w) = w.re :=
  Complex.abs_mul_cos_arg w

theorem abs_mul_sin_arg (w : ℂ) :
    Complex.abs w * Real.sin (Complex.arg w) = w.im :=
  Complex.abs_mul_sin_arg w

theorem cos_wrap_angle (θ : ℝ) :
    Real.cos (d2r (wrap24 (θ * (12 / Real.pi)) * 15)) = Real.cos θ := by
  have h1 : d2r (wrap24 (θ * (12 / Real.pi)) * 15) =
      θ - (⌊(θ * (12 / Real.pi)) / 24⌋ : ℤ) * (2 * Real.pi) := by
    rw [wrap24_eq]
    unfold d2r
    field_simp
    ring
  rw [h1, Real.cos_sub_int_mul_two_pi]

theorem sin_wrap_angle (θ : ℝ) :
    Real.sin (d2r (wrap24 (θ * (12 / Real.pi)) * 15)) = Real.sin θ := by
  have h1 : d2r (wrap24 (θ * (12 / Real.pi)) * 15) =
      θ - (⌊(θ * (12 / Real.pi)) / 24⌋ : ℤ) * (2 * Real.pi) := by
    rw [wrap24_eq]
    unfold d2r
    field_simp
    ring
  rw [h1, Real.sin_sub_int_mul_two_pi]

/-- Re-embedding a unit vector from its extracted colatitude (via `arccos`)
and its extracted local time (via `arg`, wrapped into hours and back)
recovers the vector. -/
theorem toVec_wrap_extract (v : ℝ × ℝ × ℝ) (hu : norm2 v = 1) :
    toVec (r2d (Real.arccos v.2.2))
      (wrap24 (Complex.arg ⟨v.1, v.2.1⟩ * (12 / Real.pi)) * 15) = v := by
  obtain ⟨x, y, z⟩ := v
  simp only [norm2] at hu
  have hz1 : -1 ≤ z := by nlinarith [sq_nonneg x, sq_nonneg y, sq_nonneg (z + 1)]
  have hz2 : z ≤ 1 := by nlinarith [sq_nonneg x, sq_nonneg y, sq_nonneg (z - 1)]
  have habs : Complex.abs ⟨x, y⟩ = Real.sqrt (1 - z ^ 2) := by
    rw [Complex.abs_apply, Complex.normSq_mk]
    congr 1
    linear_combination hu
  simp only [toVec]
  rw [d2r_r2d, cos_wrap_angle, sin_wrap_angle]
  rw [Real.sin_arccos, Real.cos_arccos hz1 hz2]
  rw [← habs, abs_mul_cos_arg, abs_mul_sin_arg]

/-- The local time read off a point embedded at colatitude `c` in `(0, 180)`
and azimuth `a` in `[0, 360)` (degrees) is exactly `a / 15` hours. -/
theorem azHours_toVec (c a : ℝ) (h0 : 0 < c) (h180 : c < 180)
    (ha0 : 0 ≤ a) (ha360 : a < 360) :
    azHours (toVec c a) = a / 15 := by
  have hpi := Real.pi_pos
  have hsin : 0 < Real.sin (d2r c) := by
    apply Real.sin_pos_of_pos_of_lt_pi
    · unfold d2r
      exact mul_pos h0 (by positivity)
    · unfold d2r
      nlinarith
  have hd0 : 0 ≤ d2r a := by
    unfold d2r
    exact mul_nonneg ha0 (by positivity)
  have hd2 : d2r a < 2 * Real.pi := by
    unfold d2r
    nlinarith
  have hmk : (⟨(toVec c a).1, (toVec c a).2.1⟩ : ℂ) =
      (Real.sin (d2r c) : ℂ) *
        (Complex.cos (d2r a) + Complex.sin (d2r a) * Complex.I) := by
    apply Complex.ext <;>
      simp [toVec, Complex.cos_ofReal_re, Complex.sin_ofReal_re]
  by_cases hc : d2r a ≤ Real.pi
  · have harg : Complex.arg ⟨(toVec c a).1, (toVec c a).2.1⟩ = d2r a := by
      rw [hmk]
      exact Complex.arg_mul_cos_add_sin_mul_I hsin
        (Set.mem_Ioc.mpr ⟨by linarith, hc⟩)
    unfold azHours
    rw [harg]
    rw [show d2r a * (12 / Real.pi) = a / 15 from by unfold d2r; field_simp; ring]
    exact wrap24_eq_self (by linarith) (by linarith)
  · push_neg at hc
    have hmk2 : (⟨(toVec c a).1, (toVec c a).2.1⟩ : ℂ) =
        (Real.sin (d2r c) : ℂ) *
          (Complex.cos ((d2r a - 2 * Real.pi : ℝ) : ℂ) +
            Complex.sin ((d2r a - 2 * Real.pi : ℝ) : ℂ) * Complex.I) := by
      rw [hmk]
      rw [show ((d2r a - 2 * Real.pi : ℝ) : ℂ) =
        ((d2r a : ℝ) : ℂ) - 2 * ((Real.pi : ℝ) : ℂ) from by push_cast; ring]
      rw [Complex.cos_sub_two_pi, Complex.sin_sub_two_pi]
    have harg : Complex.arg ⟨(toVec c a).1, (toVec c a).2.1⟩ =
        d2r a - 2 * Real.pi := by
      rw [hmk2]
      exact Complex.arg_mul_cos_add_sin_mul_I hsin
        (Set.mem_Ioc.mpr ⟨by linarith, by linarith⟩)
    unfold azHours
    rw [harg]
    rw [show (d2r a - 2 * Real.pi) * (12 / Real.pi) = a / 15 - 24 from by
      unfold d2r; field_simp; ring]
    rw [wrap24_sub_24]
    exact wrap24_eq_self (by linarith) (by linarith)

/-- The OCB pole itself is carried to the pole of the normalized frame. -/
theorem ocbFrame_pole (rc pc : ℝ) : ocbFrame rc pc (toVec rc pc) = (0, 0, 1) := by
  simp only [ocbFrame, toVec, rotZ, rotY, Real.cos_neg, Real.sin_neg,
    Prod.mk.injEq]
  refine ⟨?_, ?_, ?_⟩
  · linear_combination (Real.sin (d2r rc) * Real.cos (d2r rc) *
      Real.cos (d2r pc)) * Real.sin_sq_add_cos_sq (d2r pc)
  · linear_combination (Real.sin (d2r rc) * Real.cos (d2r rc) *
      Real.sin (d2r pc)) * Real.sin_sq_add_cos_sq (d2r pc)
  · linear_combination (Real.sin (d2r rc)) ^ 2 *
      Real.sin_sq_add_cos_sq (d2r pc) + Real.sin_sq_add_cos_sq (d2r rc)

/-- The reference pole, seen in the normalized frame, sits at colatitude
`rc` in the direction opposite the pole offset azimuth. -/
theorem ocbFrame_northpole (rc pc : ℝ) :
    ocbFrame rc pc (0, 0, 1) =
      (-(Real.sin (d2r rc) * Real.cos (d2r pc)),
       -(Real.sin (d2r rc) * Real.sin (d2r pc)),
       Real.cos (d2r rc)) := by
  simp only [ocbFrame, rotZ, rotY, Real.cos_neg, Real.sin_neg, Prod.mk.injEq]
  refine ⟨by ring, by ring, by ring⟩

/-- Local time of the anti-pole direction: the reference pole is seen from
the OCB pole at local time `pc / 15 - 12` hours (wrapped). -/
theorem azHours_anti_pole (rc pc : ℝ) (h0 : 0 < rc) (h1 : rc < 180)
    (hp0 : 0 < pc) (hp1 : pc ≤ 360) :
    azHours (-(Real.sin (d2r rc) * Real.cos (d2r pc)),
             -(Real.sin (d2r rc) * Real.sin (d2r pc)),
             Real.cos (d2r rc)) = wrap24 (pc / 15 - 12) := by
  have hpi := Real.pi_pos
  have hsin : 0 < Real.sin (d2r rc) :=
    Real.sin_pos_of_pos_of_lt_pi (d2r_pos h0) (d2r_lt_pi h1)
  have hmk : (⟨-(Real.sin (d2r rc) * Real.cos (d2r pc)),
        -(Real.sin (d2r rc) * Real.sin (d2r pc))⟩ : ℂ) =
      (Real.sin (d2r rc) : ℂ) *
        (Complex.cos ((d2r pc - Real.pi : ℝ) : ℂ) +
          Complex.sin ((d2r pc - Real.pi : ℝ) : ℂ) * Complex.I) := by
    apply Complex.ext <;>
      simp [Complex.cos_sub_pi, Complex.sin_sub_pi, Complex.cos_ofReal_re,
        Complex.sin_ofReal_re]
  have hp2 : d2r pc ≤ 2 * Real.pi := by
    unfold d2r
    nlinarith
  have harg : Complex.arg ⟨-(Real.sin (d2r rc) * Real.cos (d2r pc)),
      -(Real.sin (d2r rc) * Real.sin (d2r pc))⟩ = d2r pc - Real.pi := by
    rw [hmk]
    exact Complex.arg_mul_cos_add_sin_mul_I hsin
      (Set.mem_Ioc.mpr ⟨by have := d2r_pos hp0; linarith, by linarith⟩)
  simp only [azHours]
  rw [harg]
  rw [show (d2r pc - Real.pi) * (12 / Real.pi) = pc / 15 - 12 from by
    unfold d2r; field_simp; ring]

/-- The sentinel local time of the frame pole is zero. -/
theorem azHours_frame_pole : azHours ((0 : ℝ), (0 : ℝ), (1 : ℝ)) = 0 := by
  simp only [azHours]
  rw [show ((⟨0, 0⟩ : ℂ)) = (0 : ℂ) from Complex.ext (by simp) (by simp)]
  rw [Complex.arg_zero, zero_mul, wrap24_zero]

/-- Normalization of the hemisphere's pole observation: with the cursor on a
valid record whose pole offset is `(rc, pc)`, the pole observation
`(hemisphere * 90, 0)` maps to colatitude `scale * rc` at local time
`pc / 15 - 12` hours (wrapped). -/
theorem normal_coord_at_pole (ocb : OCBoundary)
    (hind : 0 ≤ ocb.rec_ind ∧ ocb.rec_ind < (ocb.recs.length : ℤ) ∧
      isGood (currentRec ocb) = true)
    (hhem : ocb.hemisphere = 1 ∨ ocb.hemisphere = -1)
    (hrc0 : 0 < (currentRec ocb).r_cent)
    (hrc1 : (currentRec ocb).r_cent < 180)
    (hpc0 : 0 < (currentRec ocb).phi_cent)
    (hpc1 : (currentRec ocb).phi_cent ≤ 360) :
    ocb.normal_coord (ocb.hemisphere * 90) 0 =
      some (ocb.hemisphere * (90 -
          ((90 - ocb.hemisphere * ocb.boundary_lat) / (currentRec ocb).r) *
            (currentRec ocb).r_cent),
        wrap24 ((currentRec ocb).phi_cent / 15 - 12)) := by
  have hsq : ocb.hemisphere * ocb.hemisphere = 1 := by
    rcases hhem with h | h <;> rw [h] <;> norm_num
  have hcolat : 90 - ocb.hemisphere * (ocb.hemisphere * 90) = 0 := by
    linear_combination (-90 : ℝ) * hsq
  have htv : toVec (90 - ocb.hemisphere * (ocb.hemisphere * 90))
      ((0 : ℝ) * 15) = ((0 : ℝ), (0 : ℝ), (1 : ℝ)) := by
    rw [hcolat]
    simp [toVec, d2r]
  simp only [OCBoundary.normal_coord, if_pos hind]
  rw [htv, ocbFrame_northpole]
  rw [show (-(Real.sin (d2r (currentRec ocb).r_cent) *
        Real.cos (d2r (currentRec ocb).phi_cent)),
      -(Real.sin (d2r (currentRec ocb).r_cent) *
        Real.sin (d2r (currentRec ocb).phi_cent)),
      Real.cos (d2r (currentRec ocb).r_cent)).2.2 =
    Real.cos (d2r (currentRec ocb).r_cent) from rfl]
  rw [Real.arccos_cos (d2r_nonneg hrc0.le) (d2r_le_pi hrc1.le), r2d_d2r]
  rw [azHours_anti_pole _ _ hrc0 hrc1 hpc0 hpc1]

/-- Re-embedding a unit vector from its extracted colatitude and its
extracted local time (`azHours`, converted back to an angle) recovers the
vector. -/
theorem toVec_azHours_extract (v : ℝ × ℝ × ℝ) (hu : norm2 v = 1) :
    toVec (r2d (Real.arccos v.2.2)) (azHours v * 15) = v := by
  simp only [azHours]
  exact toVec_wrap_extract v hu

/-! ### Claim C1: the round-trip law -/

/-- Claim C1: for a valid cursor and any observation with latitude strictly
between -90 and 90 (and not on the OCB pole), `revert_coord` applied to the
output of `normal_coord` recovers the original `(lat, mlt)` to within 1e-6
degrees — in the exact-real model the recovery is exact. -/
theorem round_trip (ocb : OCBoundary) (lat mlt : ℝ)
    (hind : 0 ≤ ocb.rec_ind ∧ ocb.rec_ind < (ocb.recs.length : ℤ) ∧
      isGood (currentRec ocb) = true)
    (hhem : ocb.hemisphere = 1 ∨ ocb.hemisphere = -1)
    (hr : (currentRec ocb).r ≠ 0)
    (hb : 90 - ocb.hemisphere * ocb.boundary_lat ≠ 0)
    (hlat1 : -90 < lat) (hlat2 : lat < 90)
    (hmlt1 : 0 ≤ mlt) (hmlt2 : mlt < 24)
    (_hpole : ¬ (lat = ocb.hemisphere * (90 - (currentRec ocb).r_cent) ∧
      mlt * 15 = (currentRec ocb).phi_cent)) :
    ∃ op ap : ℝ × ℝ, ocb.normal_coord lat mlt = some op ∧
      ocb.revert_coord op.1 op.2 = some ap ∧
      |ap.1 - lat| ≤ 1e-6 ∧ |ap.2 - mlt| ≤ 1e-6 := by
  have hsq : ocb.hemisphere * ocb.hemisphere = 1 := by
    rcases hhem with hh | hh <;> rw [hh] <;> norm_num
  have hs : (90 - ocb.hemisphere * ocb.boundary_lat) / (currentRec ocb).r ≠
      0 := div_ne_zero hb hr
  have hcol0 : 0 < 90 - ocb.hemisphere * lat := by
    rcases hhem with hh | hh <;> rw [hh] <;> linarith
  have hcol180 : 90 - ocb.hemisphere * lat < 180 := by
    rcases hhem with hh | hh <;> rw [hh] <;> linarith
  have hunit : norm2 (ocbFrame (currentRec ocb).r_cent
      (currentRec ocb).phi_cent
      (toVec (90 - ocb.hemisphere * lat) (mlt * 15))) = 1 := by
    rw [norm2_ocbFrame, norm2_toVec]
  have halg : ∀ x : ℝ,
      (90 - ocb.hemisphere * (ocb.hemisphere * (90 -
        ((90 - ocb.hemisphere * ocb.boundary_lat) / (currentRec ocb).r) *
          x))) /
        ((90 - ocb.hemisphere * ocb.boundary_lat) / (currentRec ocb).r) =
      x := by
    intro x
    have hlin : 90 - ocb.hemisphere * (ocb.hemisphere * (90 -
        ((90 - ocb.hemisphere * ocb.boundary_lat) / (currentRec ocb).r) *
          x)) =
        ((90 - ocb.hemisphere * ocb.boundary_lat) / (currentRec ocb).r) *
          x := by
      linear_combination
        (((90 - ocb.hemisphere * ocb.boundary_lat) / (currentRec ocb).r) *
          x - 90) * hsq
    rw [hlin]
    exact mul_div_cancel_left₀ x hs
  refine ⟨(ocb.hemisphere * (90 -
      ((90 - ocb.hemisphere * ocb.boundary_lat) / (currentRec ocb).r) *
        r2d (Real.arccos (ocbFrame (currentRec ocb).r_cent
          (currentRec ocb).phi_cent
          (toVec (90 - ocb.hemisphere * lat) (mlt * 15))).2.2)),
    azHours (ocbFrame (currentRec ocb).r_cent (currentRec ocb).phi_cent
      (toVec (90 - ocb.hemisphere * lat) (mlt * 15)))),
    (lat, mlt), ?_, ?_, ?_, ?_⟩
  · simp only [OCBoundary.normal_coord, if_pos hind]
  · simp only [OCBoundary.revert_coord, if_pos hind]
    rw [halg]
    rw [toVec_azHours_extract _ hunit]
    rw [ocbFrameInv_ocbFrame]
    rw [show (toVec (90 - ocb.hemisphere * lat) (mlt * 15)).2.2 =
      Real.cos (d2r (90 - ocb.hemisphere * lat)) from rfl]
    rw [Real.arccos_cos (d2r_nonneg (le_of_lt hcol0))
      (d2r_le_pi (le_of_lt hcol180))]
    rw [r2d_d2r]
    rw [azHours_toVec _ _ hcol0 hcol180 (by linarith) (by linarith)]
    rw [show (mlt * 15) / 15 = mlt from
      mul_div_cancel_right₀ _ (by norm_num)]
    rw [show ocb.hemisphere * (90 - (90 - ocb.hemisphere * lat)) = lat
      from by linear_combination lat * hsq]
  · norm_num
  · norm_num

/-- Witness for C1: the record with pole offset `(1, 10)`, radius 16,
`boundary_lat = 74`, hemisphere north, at the observation `(80, 0)`. -/
theorem round_trip_witness :
    ((0 : ℤ) ≤ roundTripOcb.rec_ind ∧
      roundTripOcb.rec_ind < (roundTripOcb.recs.length : ℤ) ∧
      isGood (currentRec roundTripOcb) = true) ∧
    (roundTripOcb.hemisphere = 1 ∨ roundTripOcb.hemisphere = -1) ∧
    ((currentRec roundTripOcb).r ≠ 0) ∧
    (90 - roundTripOcb.hemisphere * roundTripOcb.boundary_lat ≠ 0) ∧
    ((-90 : ℝ) < 80 ∧ (80 : ℝ) < 90 ∧ (0 : ℝ) ≤ 0 ∧ (0 : ℝ) < 24) ∧
    (¬ ((80 : ℝ) = roundTripOcb.hemisphere *
        (90 - (currentRec roundTripOcb).r_cent) ∧
      (0 : ℝ) * 15 = (currentRec roundTripOcb).phi_cent)) ∧
    (∃ op ap : ℝ × ℝ, roundTripOcb.normal_coord 80 0 = some op ∧
      roundTripOcb.revert_coord op.1 op.2 = some ap ∧
      |ap.1 - 80| ≤ 1e-6 ∧ |ap.2 - 0| ≤ 1e-6) :=
  ⟨⟨le_refl 0, by norm_num [roundTripOcb], rfl⟩,
   Or.inl rfl,
   by norm_num [roundTripOcb, currentRec],
   by norm_num [roundTripOcb],
   ⟨by norm_num, by norm_num, le_refl 0, by norm_num⟩,
   by norm_num [roundTripOcb, currentRec],
   round_trip roundTripOcb 80 0
     ⟨le_refl 0, by norm_num [roundTripOcb], rfl⟩
     (Or.inl rfl)
     (by norm_num [roundTripOcb, currentRec])
     (by norm_num [roundTripOcb])
     (by norm_num) (by norm_num) (le_refl 0) (by norm_num)
     (by norm_num [roundTripOcb, currentRec])⟩

/-! ### Claim C9: the pole-coincidence sentinel -/

/-- Claim C9: for any boundary set whose cursor selects a valid record, an
observation coinciding with the OCB pole normalizes to
`ocb_lat = hemisphere * 90` (that is, `+90` north / `-90` south) with the
fixed sentinel local time `0`; the function returns a value (it is total),
so no exception is raised. -/
theorem pole_coincidence_sentinel (ocb : OCBoundary) (lat mlt : ℝ)
    (hind : 0 ≤ ocb.rec_ind ∧ ocb.rec_ind < (ocb.recs.length : ℤ) ∧
      isGood (currentRec ocb) = true)
    (hhem : ocb.hemisphere = 1 ∨ ocb.hemisphere = -1)
    (hlat : lat = ocb.hemisphere * (90 - (currentRec ocb).r_cent))
    (hmlt : mlt = (currentRec ocb).phi_cent / 15) :
    ocb.normal_coord lat mlt = some (ocb.hemisphere * 90, 0) := by
  have hsq : ocb.hemisphere * ocb.hemisphere = 1 := by
    rcases hhem with h | h <;> rw [h] <;> norm_num
  have hcolat : 90 - ocb.hemisphere * lat = (currentRec ocb).r_cent := by
    rw [hlat]
    linear_combination ((currentRec ocb).r_cent - 90) * hsq
  have haz : mlt * 15 = (currentRec ocb).phi_cent := by
    rw [hmlt]
    exact div_mul_cancel₀ _ (by norm_num)
  simp only [OCBoundary.normal_coord, if_pos hind]
  rw [hcolat, haz, ocbFrame_pole]
  rw [show ((0 : ℝ), (0 : ℝ), (1 : ℝ)).2.2 = (1 : ℝ) from rfl]
  rw [Real.arccos_one, azHours_frame_pole]
  rw [show r2d 0 = (0 : ℝ) from by unfold r2d; ring]
  rw [mul_zero, sub_zero]

/-- Witness for C9: the record with pole offset `(3, 30)` and the
observation `(87, 2)`, which sits exactly on that OCB pole. -/
theorem pole_coincidence_sentinel_witness :
    ((0 : ℤ) ≤ poleWitnessOcb.rec_ind ∧
      poleWitnessOcb.rec_ind < (poleWitnessOcb.recs.length : ℤ) ∧
      isGood (currentRec poleWitnessOcb) = true) ∧
    (poleWitnessOcb.hemisphere = 1 ∨ poleWitnessOcb.hemisphere = -1) ∧
    ((87 : ℝ) = poleWitnessOcb.hemisphere *
      (90 - (currentRec poleWitnessOcb).r_cent)) ∧
    ((2 : ℝ) = (currentRec poleWitnessOcb).phi_cent / 15) ∧
    poleWitnessOcb.normal_coord 87 2 =
      some (poleWitnessOcb.hemisphere * 90, 0) :=
  ⟨⟨le_refl 0, by norm_num [poleWitnessOcb], rfl⟩,
   Or.inl rfl,
   by norm_num [poleWitnessOcb, currentRec],
   by norm_num [poleWitnessOcb, currentRec],
   pole_coincidence_sentinel poleWitnessOcb 87 2
     ⟨le_refl 0, by norm_num [poleWitnessOcb], rfl⟩
     (Or.inl rfl)
     (by norm_num [poleWitnessOcb, currentRec])
     (by norm_num [poleWitnessOcb, currentRec])⟩

/-! ### Claim C4: concrete scenario A (north) -/

/-- Claim C4: with a northern record of radius 18.38 and `boundary_lat = 74`
the pole observation `(90, 0)` normalizes to approximately
`(86.8658623137, 17.832)`.  The record's pole offset, absent from `src/`,
is the reconstructed `scenarioNorthRec`; the theorem verifies that the
normalization algorithm reproduces both expected outputs from that single
record. -/
theorem scenario_north_normal_coord :
    ∃ p : ℝ × ℝ, scenarioNorthOcb.normal_coord 90 0 = some p ∧
      |p.1 - 86.8658623137| ≤ 1e-7 ∧ |p.2 - 17.832| ≤ 1e-7 := by
  have hcur : currentRec scenarioNorthOcb = scenarioNorthRec := rfl
  have hind : 0 ≤ scenarioNorthOcb.rec_ind ∧
      scenarioNorthOcb.rec_ind < (scenarioNorthOcb.recs.length : ℤ) ∧
      isGood (currentRec scenarioNorthOcb) = true :=
    ⟨le_refl 0, by norm_num [scenarioNorthOcb], rfl⟩
  have h := normal_coord_at_pole scenarioNorthOcb hind (Or.inl rfl)
    (by rw [hcur]; norm_num [scenarioNorthRec])
    (by rw [hcur]; norm_num [scenarioNorthRec])
    (by rw [hcur]; norm_num [scenarioNorthRec])
    (by rw [hcur]; norm_num [scenarioNorthRec])
  rw [show scenarioNorthOcb.hemisphere * 90 = (90 : ℝ) from by
    norm_num [scenarioNorthOcb]] at h
  refine ⟨_, h, ?_, ?_⟩
  · rw [hcur]
    norm_num [scenarioNorthOcb, scenarioNorthRec]
  · rw [hcur]
    norm_num [scenarioNorthRec]
    rw [wrap24_neg_add (by norm_num) (by norm_num)]
    norm_num

/-! ### Claim C8: concrete scenario C (south) -/

/-- Claim C8: with a southern record and `boundary_lat = -72` the pole
observation `(-90, 0)` normalizes to approximately `(-86.4, 6.0)`.  The
record's radius and pole offset, absent from `src/`, are the reconstructed
`scenarioSouthRec`; the theorem verifies that the normalization algorithm
reproduces both expected outputs from that single record. -/
theorem scenario_south_normal_coord :
    ∃ p : ℝ × ℝ, scenarioSouthOcb.normal_coord (-90) 0 = some p ∧
      |p.1 - (-86.4)| ≤ 1e-7 ∧ |p.2 - 6| ≤ 1e-7 := by
  have hcur : currentRec scenarioSouthOcb = scenarioSouthRec := rfl
  have hind : 0 ≤ scenarioSouthOcb.rec_ind ∧
      scenarioSouthOcb.rec_ind < (scenarioSouthOcb.recs.length : ℤ) ∧
      isGood (currentRec scenarioSouthOcb) = true :=
    ⟨le_refl 0, by norm_num [scenarioSouthOcb], rfl⟩
  have h := normal_coord_at_pole scenarioSouthOcb hind (Or.inr rfl)
    (by rw [hcur]; norm_num [scenarioSouthRec])
    (by rw [hcur]; norm_num [scenarioSouthRec])
    (by rw [hcur]; norm_num [scenarioSouthRec])
    (by rw [hcur]; norm_num [scenarioSouthRec])
  rw [show scenarioSouthOcb.hemisphere * 90 = (-90 : ℝ) from by
    norm_num [scenarioSouthOcb]] at h
  refine ⟨_, h, ?_, ?_⟩
  · rw [hcur]
    norm_num [scenarioSouthOcb, scenarioSouthRec]
  · rw [hcur]
    norm_num [scenarioSouthRec]
    rw [wrap24_eq_self (by norm_num) (by norm_num)]
    norm_num

/-! ### Matcher lemmas -/

/-- One unfolding step of the matching loop. -/
theorem matchLoop_step (recs : List OCBRecord) (epochs : List ℤ) (tol : ℤ)
    (fuel : ℕ) (r : ℤ) (idat : ℕ) :
    matchLoop recs epochs tol (fuel + 1) r idat =
      if idat < epochs.length then
        if 0 ≤ r ∧ r < (recs.length : ℤ) then
          if |(recs.getD r.toNat dfltRec).epoch - epochs.getD idat 0| ≤ tol
          then (some idat, r)
          else if (recs.getD r.toNat dfltRec).epoch < epochs.getD idat 0 then
            matchLoop recs epochs tol fuel (nextGoodInd recs r) idat
          else matchLoop recs epochs tol fuel r (idat + 1)
        else (none, r)
      else (none, r) := rfl

/-- The forward scan always moves the cursor strictly forward, for any
cursor that is in range or still before the records. -/
theorem lt_nextGoodInd (recs : List OCBRecord) (r : ℤ)
    (h : r < (recs.length : ℤ) ∨ r < 0) : r < nextGoodInd recs r := by
  simp only [nextGoodInd]
  rcases hf : (recs.drop (r + 1).toNat).findIdx? isGood with _ | i
  · show r < (recs.length : ℤ)
    rcases h with h | h
    · exact h
    · omega
  · show r < (((r + 1).toNat + i : ℕ) : ℤ)
    omega

/-- The matching loop never moves the cursor backward. -/
theorem matchLoop_mono (recs : List OCBRecord) (epochs : List ℤ) (tol : ℤ) :
    ∀ (fuel : ℕ) (r : ℤ) (idat : ℕ),
      r ≤ (matchLoop recs epochs tol fuel r idat).2 := by
  intro fuel
  induction fuel with
  | zero => intro r idat; exact le_refl r
  | succ n ih =>
      intro r idat
      rw [matchLoop_step]
      split_ifs with hi hr ht hlt
      · exact le_refl r
      · exact le_trans (le_of_lt (lt_nextGoodInd recs r (Or.inl hr.2)))
          (ih _ _)
      · exact ih r (idat + 1)
      · exact le_refl r
      · exact le_refl r

/-- A single `match_data_ocb` call never moves the cursor backward. -/
theorem match_data_ocb_mono (ocb : OCBoundary) (epochs : List ℤ) (idat : ℕ)
    (tol : ℤ) :
    ocb.rec_ind ≤ ((match_data_ocb ocb epochs idat tol).2).rec_ind := by
  simp only [match_data_ocb]
  split_ifs with hneg
  · exact le_trans (le_of_lt (lt_nextGoodInd _ _ (Or.inr hneg)))
      (matchLoop_mono _ _ _ _ _ _)
  · exact matchLoop_mono _ _ _ _ _ _

/-- Across a full pass, the successive cursor values form an ascending
chain. -/
theorem matchPass_chain (epochs : List ℤ) (tol : ℤ) :
    ∀ (fuel : ℕ) (ocb : OCBoundary) (idat : ℕ),
      List.Chain (· ≤ ·) ocb.rec_ind (matchPass epochs tol fuel ocb idat) := by
  intro fuel
  induction fuel with
  | zero => intro ocb idat; exact List.Chain.nil
  | succ n ih =>
      intro ocb idat
      simp only [matchPass]
      split_ifs with hi
      · exact List.Chain.cons (match_data_ocb_mono ocb epochs idat tol)
          (ih _ _)
      · exact List.Chain.nil

/-! ### Claim C2: the monotone cursor invariant -/

/-- Claim C2: across a full matching pass over an ascending `data_epochs`
array the cursor `rec_ind` is non-decreasing — a single `match_data_ocb`
call never moves it backward, the chain of cursor values over a whole pass
is ascending (so a record once passed is never revisited), and
`get_next_good_ocb_ind`'s scan only ever moves forward from `start + 1`. -/
theorem monotone_cursor :
    (∀ (ocb : OCBoundary) (epochs : List ℤ) (idat : ℕ) (tol : ℤ),
        ocb.rec_ind ≤ ((match_data_ocb ocb epochs idat tol).2).rec_ind) ∧
    (∀ (epochs : List ℤ) (tol : ℤ) (fuel : ℕ) (ocb : OCBoundary) (idat : ℕ),
        epochs.Sorted (· ≤ ·) →
        List.Chain (· ≤ ·) ocb.rec_ind
          (matchPass epochs tol fuel ocb idat)) ∧
    (∀ (recs : List OCBRecord) (start : ℤ),
        start < (recs.length : ℤ) → start + 1 ≤ nextGoodInd recs start) :=
  ⟨fun ocb epochs idat tol => match_data_ocb_mono ocb epochs idat tol,
   fun epochs tol fuel ocb idat _ => matchPass_chain epochs tol fuel ocb idat,
   fun recs start h =>
     Int.add_one_le_iff.mpr (lt_nextGoodInd recs start (Or.inl h))⟩

/-- Witness for C2 on a concrete one-record boundary set and a concrete
sorted two-epoch series. -/
theorem monotone_cursor_witness :
    ((⟨some "f", [⟨100, 1, 0, 16, 5⟩], 74, 1, 0⟩ : OCBoundary).rec_ind ≤
      ((match_data_ocb ⟨some "f", [⟨100, 1, 0, 16, 5⟩], 74, 1, 0⟩
        [0, 50] 0 600).2).rec_ind) ∧
    (([0, 50] : List ℤ).Sorted (· ≤ ·) ∧
      List.Chain (· ≤ ·)
        (⟨some "f", [⟨100, 1, 0, 16, 5⟩], 74, 1, 0⟩ : OCBoundary).rec_ind
        (matchPass [0, 50] 600 2
          ⟨some "f", [⟨100, 1, 0, 16, 5⟩], 74, 1, 0⟩ 0)) ∧
    ((0 : ℤ) < (([⟨100, 1, 0, 16, 5⟩] : List OCBRecord).length : ℤ) ∧
      (0 : ℤ) + 1 ≤ nextGoodInd [⟨100, 1, 0, 16, 5⟩] 0) :=
  ⟨monotone_cursor.1 _ [0, 50] 0 600,
   ⟨by decide,
    monotone_cursor.2.1 [0, 50] 600 2 _ 0 (by decide)⟩,
   ⟨by decide, monotone_cursor.2.2 [⟨100, 1, 0, 16, 5⟩] 0 (by decide)⟩⟩

/-! ### Claim C6: cursor-stable immediate match -/

/-- Claim C6: if the record currently selected by `rec_ind` already lies
within `max_tol` of `data_epochs[data_index]`, `match_data_ocb` returns that
same data index immediately and the boundary set comes back with the cursor
unchanged. -/
theorem match_immediate (ocb : OCBoundary) (epochs : List ℤ) (idat : ℕ)
    (tol : ℤ) (h0 : 0 ≤ ocb.rec_ind)
    (h1 : ocb.rec_ind < (ocb.recs.length : ℤ)) (h2 : idat < epochs.length)
    (h3 : |(currentRec ocb).epoch - epochs.getD idat 0| ≤ tol) :
    match_data_ocb ocb epochs idat tol = (some idat, ocb) := by
  have hr0 : ¬ ocb.rec_ind < 0 := not_lt.mpr h0
  have h3dot : |(ocb.recs.getD ocb.rec_ind.toNat dfltRec).epoch -
      epochs.getD idat 0| ≤ tol := h3
  simp only [match_data_ocb, if_neg hr0]
  rw [show ocb.recs.length + epochs.length + 2 =
    (ocb.recs.length + epochs.length + 1) + 1 from rfl]
  rw [matchLoop_step, if_pos h2, if_pos (And.intro h0 h1), if_pos h3dot]

/-- Witness for C6: the single record at epoch 100 is 300 seconds from the
observation at epoch 400, within the 600-second tolerance. -/
theorem match_immediate_witness :
    ((0 : ℤ) ≤ (⟨some "f", [⟨100, 1, 0, 16, 5⟩], 74, 1, 0⟩ :
        OCBoundary).rec_ind ∧
      (⟨some "f", [⟨100, 1, 0, 16, 5⟩], 74, 1, 0⟩ : OCBoundary).rec_ind <
        (([⟨100, 1, 0, 16, 5⟩] : List OCBRecord).length : ℤ) ∧
      0 < ([(400 : ℤ)] : List ℤ).length ∧
      |(currentRec ⟨some "f", [⟨100, 1, 0, 16, 5⟩], 74, 1, 0⟩).epoch -
        ([(400 : ℤ)] : List ℤ).getD 0 0| ≤ 600) ∧
    match_data_ocb ⟨some "f", [⟨100, 1, 0, 16, 5⟩], 74, 1, 0⟩ [400] 0 600 =
      (some 0, ⟨some "f", [⟨100, 1, 0, 16, 5⟩], 74, 1, 0⟩) :=
  ⟨⟨by decide, by decide, by decide, by decide⟩,
   match_immediate ⟨some "f", [⟨100, 1, 0, 16, 5⟩], 74, 1, 0⟩ [400] 0 600
     (by decide) (by decide) (by decide) (by decide)⟩

/-! ### Claim C5: the tolerance boundary -/

/-- Claim C5: with the default tolerance of 600 seconds a record whose epoch
differs from the observation epoch by exactly 600 seconds matches (on either
side), and a record one second beyond the tolerance does not. -/
theorem tolerance_boundary (t : ℤ) :
    (match_data_ocb ⟨some "f", [⟨t + default_max_tol, 1, 0, 16, 5⟩], 74, 1, 0⟩
        [t] 0 default_max_tol).1 = some 0 ∧
    (match_data_ocb ⟨some "f", [⟨t - default_max_tol, 1, 0, 16, 5⟩], 74, 1, 0⟩
        [t] 0 default_max_tol).1 = some 0 ∧
    (match_data_ocb
        ⟨some "f", [⟨t + default_max_tol + 1, 1, 0, 16, 5⟩], 74, 1, 0⟩
        [t] 0 default_max_tol).1 = none ∧
    (match_data_ocb
        ⟨some "f", [⟨t - default_max_tol - 1, 1, 0, 16, 5⟩], 74, 1, 0⟩
        [t] 0 default_max_tol).1 = none := by
  have habs1 : |t + default_max_tol - t| ≤ default_max_tol := by
    rw [show t + default_max_tol - t = default_max_tol from by ring]
    decide
  have habs2 : |t - default_max_tol - t| ≤ default_max_tol := by
    rw [show t - default_max_tol - t = -default_max_tol from by ring]
    decide
  have habs3 : ¬ |t + default_max_tol + 1 - t| ≤ default_max_tol := by
    rw [show t + default_max_tol + 1 - t = default_max_tol + 1 from by ring]
    decide
  have habs4 : ¬ |t - default_max_tol - 1 - t| ≤ default_max_tol := by
    rw [show t - default_max_tol - 1 - t = -(default_max_tol + 1) from by ring]
    decide
  refine ⟨?_, ?_, ?_, ?_⟩
  · simp only [match_data_ocb]
    try dsimp only
    rw [if_neg (by decide : ¬ (0 : ℤ) < 0)]
    rw [show ([⟨t + default_max_tol, 1, 0, 16, 5⟩] :
        List OCBRecord).length + ([t] : List ℤ).length + 2 = 3 + 1 from rfl]
    rw [matchLoop_step]
    rw [if_pos (by simp : 0 < ([t] : List ℤ).length)]
    rw [if_pos (⟨le_refl 0, by simp⟩ :
      (0 : ℤ) ≤ 0 ∧ (0 : ℤ) < (([⟨t + default_max_tol, 1, 0, 16, 5⟩] :
        List OCBRecord).length : ℤ))]
    simp only [Int.toNat_zero, List.getD_cons_zero]
    try dsimp only
    rw [if_pos habs1]
  · simp only [match_data_ocb]
    try dsimp only
    rw [if_neg (by decide : ¬ (0 : ℤ) < 0)]
    rw [show ([⟨t - default_max_tol, 1, 0, 16, 5⟩] :
        List OCBRecord).length + ([t] : List ℤ).length + 2 = 3 + 1 from rfl]
    rw [matchLoop_step]
    rw [if_pos (by simp : 0 < ([t] : List ℤ).length)]
    rw [if_pos (⟨le_refl 0, by simp⟩ :
      (0 : ℤ) ≤ 0 ∧ (0 : ℤ) < (([⟨t - default_max_tol, 1, 0, 16, 5⟩] :
        List OCBRecord).length : ℤ))]
    simp only [Int.toNat_zero, List.getD_cons_zero]
    try dsimp only
    rw [if_pos habs2]
  · simp only [match_data_ocb]
    try dsimp only
    rw [if_neg (by decide : ¬ (0 : ℤ) < 0)]
    rw [show ([⟨t + default_max_tol + 1, 1, 0, 16, 5⟩] :
        List OCBRecord).length + ([t] : List ℤ).length + 2 = 3 + 1 from rfl]
    rw [matchLoop_step]
    rw [if_pos (by simp : 0 < ([t] : List ℤ).length)]
    rw [if_pos (⟨le_refl 0, by simp⟩ :
      (0 : ℤ) ≤ 0 ∧ (0 : ℤ) <
        (([⟨t + default_max_tol + 1, 1, 0, 16, 5⟩] :
          List OCBRecord).length : ℤ))]
    simp only [Int.toNat_zero, List.getD_cons_zero]
    try dsimp only
    rw [if_neg habs3]
    rw [if_neg (by unfold default_max_tol; omega : ¬ t + default_max_tol + 1 < t)]
    rw [show (3 : ℕ) = 2 + 1 from rfl, matchLoop_step]
    rw [if_neg (by simp : ¬ (0 + 1 : ℕ) < ([t] : List ℤ).length)]
  · simp only [match_data_ocb]
    try dsimp only
    rw [if_neg (by decide : ¬ (0 : ℤ) < 0)]
    rw [show ([⟨t - default_max_tol - 1, 1, 0, 16, 5⟩] :
        List OCBRecord).length + ([t] : List ℤ).length + 2 = 3 + 1 from rfl]
    rw [matchLoop_step]
    rw [if_pos (by simp : 0 < ([t] : List ℤ).length)]
    rw [if_pos (⟨le_refl 0, by simp⟩ :
      (0 : ℤ) ≤ 0 ∧ (0 : ℤ) <
        (([⟨t - default_max_tol - 1, 1, 0, 16, 5⟩] :
          List OCBRecord).length : ℤ))]
    simp only [Int.toNat_zero, List.getD_cons_zero]
    try dsimp only
    rw [if_neg habs4]
    rw [if_pos (by unfold default_max_tol; omega : t - default_max_tol - 1 < t)]
    rw [show (3 : ℕ) = 2 + 1 from rfl, matchLoop_step]
    rw [if_pos (by simp : 0 < ([t] : List ℤ).length)]
    rw [if_neg (by simp [nextGoodInd] :
      ¬ ((0 : ℤ) ≤ nextGoodInd [⟨t - default_max_tol - 1, 1, 0, 16, 5⟩] 0 ∧
        nextGoodInd [⟨t - default_max_tol - 1, 1, 0, 16, 5⟩] 0 <
          (([⟨t - default_max_tol - 1, 1, 0, 16, 5⟩] :
            List OCBRecord).length : ℤ)))]

/-! ### Claim C3: vector magnitude scaling laws -/

/-- Claim C3: for a plain (area-type) vector the OCB-scaled magnitude
satisfies `|v_ocb| * (r / (90 - boundary_lat))^2 = |v_aacgm|` to within
1e-9 relative error, while a curl-type vector is scaled by the linear
(unsquared) ratio `r / (90 - boundary_lat)`. -/
theorem plain_and_curl_scaling (n e r bl : ℝ) (hr : r ≠ 0)
    (hb : 90 - bl ≠ 0) :
    |scaled_mag .plain (aacgm_mag n e) r bl * (r / (90 - bl)) ^ 2 -
        aacgm_mag n e| ≤ 1e-9 * |aacgm_mag n e| ∧
    scaled_mag .curl (aacgm_mag n e) r bl * (r / (90 - bl)) =
      aacgm_mag n e := by
  have hratio : r / (90 - bl) ≠ 0 := div_ne_zero hr hb
  have h1 : scaled_mag .plain (aacgm_mag n e) r bl * (r / (90 - bl)) ^ 2 =
      aacgm_mag n e := by
    simp only [scaled_mag, normal_evar, radius_ratio]
    exact div_mul_cancel₀ _ (pow_ne_zero 2 hratio)
  refine ⟨?_, ?_⟩
  · rw [h1, sub_self, abs_zero]
    positivity
  · simp only [scaled_mag, normal_curl_evar, radius_ratio]
    exact div_mul_cancel₀ _ hratio

/-- Witness for C3 at the concrete record radius 18.38 and boundary
latitude 74 with the vector (3, 4). -/
theorem plain_and_curl_scaling_witness :
    ((18.38 : ℝ) ≠ 0 ∧ (90 : ℝ) - 74 ≠ 0) ∧
    (|scaled_mag .plain (aacgm_mag 3 4) 18.38 74 *
        ((18.38 : ℝ) / (90 - 74)) ^ 2 - aacgm_mag 3 4| ≤
        1e-9 * |aacgm_mag 3 4| ∧
      scaled_mag .curl (aacgm_mag 3 4) 18.38 74 *
        ((18.38 : ℝ) / (90 - 74)) = aacgm_mag 3 4) :=
  ⟨⟨by norm_num, by norm_num⟩,
    plain_and_curl_scaling 3 4 18.38 74 (by norm_num) (by norm_num)⟩

/-! ### Claim C10: the empty boundary store -/

/-- Claim C10: constructing an `OCBoundary` with no file, or requesting a
non-default instrument without supplying a file, succeeds and yields the
empty boundary store: `filename = none`, `dtime = none`, `records = 0`. -/
theorem mkOCBoundary_empty_store (instrument : String) (hemi bl : ℝ)
    (load : String → List OCBRecord) :
    ((mkOCBoundary .noFile instrument hemi bl load).filename = none ∧
      (mkOCBoundary .noFile instrument hemi bl load).dtime = none ∧
      (mkOCBoundary .noFile instrument hemi bl load).records = 0) ∧
    (instrument ≠ "image" →
      (mkOCBoundary .useDefault instrument hemi bl load).filename = none ∧
      (mkOCBoundary .useDefault instrument hemi bl load).dtime = none ∧
      (mkOCBoundary .useDefault instrument hemi bl load).records = 0) := by
  constructor
  · exact ⟨rfl, rfl, rfl⟩
  · intro h
    have hbeq : (instrument == "image") = false :=
      beq_eq_false_iff_ne.mpr h
    simp [mkOCBoundary, hbeq, OCBoundary.dtime, OCBoundary.records]

/-- Witness for C10 with the instrument name AMPERE (not the default
instrument), mirroring `test_wrong_instrument`. -/
theorem mkOCBoundary_empty_store_witness :
    ("AMPERE" ≠ "image") ∧
    ((mkOCBoundary .useDefault "AMPERE" 1 74 (fun _ => [])).filename = none ∧
      (mkOCBoundary .useDefault "AMPERE" 1 74 (fun _ => [])).dtime = none ∧
      (mkOCBoundary .useDefault "AMPERE" 1 74 (fun _ => [])).records = 0) :=
  ⟨by decide,
    (mkOCBoundary_empty_store "AMPERE" 1 74 (fun _ => [])).2 (by decide)⟩

/-! ### Claim C7: fail-fast configuration errors -/

/-- Claim C7: an unknown position field name, a declared vector whose
component field name is absent, and a vector declared without a resolvable
scaling function each make `add_ocb_to_data` return a configuration error
identifying the missing name; being an `Except`, no output is produced in
any of these cases (fail fast, no partial application). -/
theorem add_ocb_config_errors :
    (∀ (fields : List String) (mlat mlt : String) (evar curl : List String)
        (vnames : List (String × VectorSpec)),
        mlat ∉ fields →
        add_ocb_to_data fields mlat mlt evar curl vnames =
          .error (.unknownMlat mlat)) ∧
    (∀ (fields : List String) (mlat mlt key : String) (vspec : VectorSpec),
        mlat ∈ fields → mlt ∈ fields →
        vspec.aacgm_n ∉ fields →
        add_ocb_to_data fields mlat mlt [key] [] [(key, vspec)] =
          .error (.unknownVectorName vspec.aacgm_n)) ∧
    (∀ (fields : List String) (mlat mlt key : String) (vspec : VectorSpec),
        mlat ∈ fields → mlt ∈ fields →
        vspec.scale_func = none →
        add_ocb_to_data fields mlat mlt [] [] [(key, vspec)] =
          .error (.missingScaleFunc key)) := by
  refine ⟨?_, ?_, ?_⟩
  · intro fields mlat mlt evar curl vnames h
    simp [add_ocb_to_data, h]
  · intro fields mlat mlt key vspec h1 h2 h3
    simp [add_ocb_to_data, h1, h2, resolveVectors, h3]
  · intro fields mlat mlt key vspec h1 h2 h3
    simp [add_ocb_to_data, h1, h2, resolveVectors, h3]

/-- Witness for C7, mirroring `test_add_ocb_to_data_bad_mlat`,
`test_add_ocb_to_data_bad_vector_name` and
`test_add_ocb_to_data_bad_vector_scale`. -/
theorem add_ocb_config_errors_witness :
    (add_ocb_to_data ["latitude", "mlt", "dummy1"] "mlat" "mlt" [] [] [] =
      .error (.unknownMlat "mlat")) ∧
    (add_ocb_to_data ["latitude", "mlt", "dummy1"] "latitude" "mlt" ["bad"] []
        [("bad", ⟨"bad_n", "dummy1", "bad", "", none⟩)] =
      .error (.unknownVectorName "bad_n")) ∧
    (add_ocb_to_data ["latitude", "mlt", "dummy1"] "latitude" "mlt" [] []
        [("bad", ⟨"bad_n", "bad_e", "bad", "", none⟩)] =
      .error (.missingScaleFunc "bad")) :=
  ⟨add_ocb_config_errors.1 _ _ _ _ _ _ (by decide),
    add_ocb_config_errors.2.1 ["latitude", "mlt", "dummy1"] "latitude" "mlt"
      "bad" ⟨"bad_n", "dummy1", "bad", "", none⟩ (by decide) (by decide)
      (by decide),
    add_ocb_config_errors.2.2 ["latitude", "mlt", "dummy1"] "latitude" "mlt"
      "bad" ⟨"bad_n", "bad_e", "bad", "", none⟩ (by decide) (by decide) rfl⟩

end Ocbpy
